import Mathlib

/-!
Shallow embedding of the RigWorkZ whitelist API (src/server.js) and proofs of the
specification's claims about it.

The store is modelled as the list of persisted `Whitelist` documents in insertion
("natural") order.  Timestamps are epoch milliseconds as `Int`.  Characters are
compared through their code points (`Char.toNat`): '0' = 48, '9' = 57, 'A' = 65,
'F' = 70, 'X' = 88, 'Z' = 90, 'a' = 97, 'f' = 102, 'x' = 120, 'z' = 122.
-/

namespace Rigworkz

/-- One persisted document of the `Whitelist` Mongo collection
(src/server.js:72-101).  The `timestamps: true` bookkeeping fields
(`createdAt`/`updatedAt`) are omitted: no endpoint reads them. -/
structure Registration where
  address : String
  registeredAt : Int
  ipAddress : Option String
  userAgent : Option String
deriving Repr, DecidableEq

/-- The collection, in insertion order. -/
abbrev Store := List Registration

/-- The character class `[a-fA-F0-9]` of the regex in src/server.js:104:
a-f (97-102), A-F (65-70), 0-9 (48-57). -/
def isHexChar (c : Char) : Bool :=
  (97 ≤ c.toNat && c.toNat ≤ 102) || (65 ≤ c.toNat && c.toNat ≤ 70) ||
    (48 ≤ c.toNat && c.toNat ≤ 57)

/-- `isValidEthereumAddress` (src/server.js:103-105): the anchored regex test
`/^0x[a-fA-F0-9]{40}$/.test(address)` — the literal characters `0` and `x`, then
exactly 40 characters of the hex class, then the end of the string.  (JS `$`
without the `m` flag anchors at the very end, so this is a full-string match.) -/
def isValidEthereumAddress (s : String) : Bool :=
  match s.data with
  | '0' :: 'x' :: rest => rest.length == 40 && rest.all isHexChar
  | _ => false

/-- JS `String.prototype.toLowerCase` on one character: ASCII A-Z (65-90) maps to
a-z by adding 32; every other character is unchanged.  (The full Unicode mapping
agrees with this on the ASCII range, the only range the handlers exercise.) -/
def lowerChar (c : Char) : Char :=
  if 65 ≤ c.toNat ∧ c.toNat ≤ 90 then Char.ofNat (c.toNat + 32) else c

/-- JS `String.prototype.toLowerCase`, applied characterwise. -/
def jsToLower (s : String) : String := ⟨s.data.map lowerChar⟩

/-- Whitespace skipped by JS `parseInt`: space, tab, LF, VT, FF, CR.  (The
Unicode space separators also count in JS; they are not exercised here.) -/
def jsSpace (c : Char) : Bool :=
  c = ' ' || c = '\t' || c = '\n' || c = '\x0b' || c = '\x0c' || c = '\r'

/-- Digit value of `c` in `parseInt`'s digit alphabet 0-9 / a-z / A-Z. -/
def digitVal (c : Char) : Option Nat :=
  if 48 ≤ c.toNat ∧ c.toNat ≤ 57 then some (c.toNat - 48)
  else if 97 ≤ c.toNat ∧ c.toNat ≤ 122 then some (c.toNat - 87)
  else if 65 ≤ c.toNat ∧ c.toNat ≤ 90 then some (c.toNat - 55)
  else none

/-- Whether `c` is a digit of the given radix. -/
def isRadixDigit (radix : Nat) (c : Char) : Bool :=
  match digitVal c with
  | some v => v < radix
  | none => false

/-- Horner evaluation of a digit run. -/
def digitsToNat (radix : Nat) : List Char → Nat → Nat
  | [], acc => acc
  | c :: cs, acc => digitsToNat radix cs (acc * radix + (digitVal c).getD 0)

/-- JS `parseInt(s)` with no radix argument (src/server.js:213-214): skip leading
whitespace, take an optional sign, auto-detect radix 16 on a leading `0x`/`0X`,
otherwise radix 10, then read the longest run of digits of that radix; `none`
models `NaN` (no digits at all).  JS numbers are IEEE doubles, so digit runs
beyond 2^53 would round; the exact integer is used here (unexercised). -/
def jsParseInt (s : String) : Option Int :=
  let cs := s.data.dropWhile jsSpace
  let signAndRest : Int × List Char :=
    match cs with
    | '-' :: rest => (-1, rest)
    | '+' :: rest => (1, rest)
    | _ => (1, cs)
  let radixAndRest : Nat × List Char :=
    match signAndRest.2 with
    | '0' :: 'x' :: rest => (16, rest)
    | '0' :: 'X' :: rest => (16, rest)
    | _ => (10, signAndRest.2)
  let ds := radixAndRest.2.takeWhile (isRadixDigit radixAndRest.1)
  if ds.isEmpty then none
  else some (signAndRest.1 * (digitsToNat radixAndRest.1 ds 0 : Int))

/-- `parseInt` applied to an optional query parameter: `parseInt(undefined)`
is `NaN`. -/
def jsParseIntOpt (q : Option String) : Option Int :=
  match q with
  | none => none
  | some s => jsParseInt s

/-- JS `v || d` applied to a `parseInt` result: `NaN` (modelled as `none`) and
`0` are both falsy, so both select the default. -/
def orDefault (v : Option Int) (d : Int) : Int :=
  match v with
  | none => d
  | some n => if n = 0 then d else n

/-- Outcome of POST /api/whitelist/register. -/
inductive RegisterResult where
  /-- 400 "Invalid wallet address" (missing/non-string body field). -/
  | invalidInput : RegisterResult
  /-- 400 "Invalid Ethereum address format". -/
  | invalidFormat : RegisterResult
  /-- 409 "Address already registered", surfacing the existing document's
  `address` and `registeredAt`. -/
  | alreadyRegistered (address : String) (registeredAt : Int) : RegisterResult
  /-- 201, surfacing the new document's `address` and `registeredAt`. -/
  | created (address : String) (registeredAt : Int) : RegisterResult
deriving Repr, DecidableEq

/-- POST /api/whitelist/register (src/server.js:108-167).  The body's `address`
is modelled as a `String`; of the `!address || typeof address !== "string"`
guard, the non-string arm is outside the model and the empty string is the
remaining falsy string.  `now` is `Date.now` at the insert, giving the new
document's `registeredAt` (schema default).  `findOne` returns the first
matching document in natural order.  The observability `countDocuments`
re-query after the save does not touch the result and is not modelled. -/
def registerOp (address : String) (now : Int) (ip ua : Option String) (s : Store) :
    RegisterResult × Store :=
  if address = "" then (.invalidInput, s)
  else if ¬ isValidEthereumAddress address then (.invalidFormat, s)
  else
    let normalizedAddress := jsToLower address
    match s.find? (fun r => r.address == normalizedAddress) with
    | some existing => (.alreadyRegistered existing.address existing.registeredAt, s)
    | none =>
      let registration : Registration :=
        { address := normalizedAddress, registeredAt := now, ipAddress := ip, userAgent := ua }
      (.created registration.address registration.registeredAt, s ++ [registration])

/-- Outcome of GET /api/whitelist/check/:address. -/
inductive CheckResult where
  /-- 400 "Address is required". -/
  | invalidInput : CheckResult
  /-- 400 "Invalid Ethereum address format". -/
  | invalidFormat : CheckResult
  /-- 200 with `isRegistered` and the found document's `address`/`registeredAt`
  (or `null`). -/
  | ok (isRegistered : Bool) (registration : Option (String × Int)) : CheckResult
deriving Repr, DecidableEq

/-- GET /api/whitelist/check/:address (src/server.js:169-209). -/
def checkOp (address : String) (s : Store) : CheckResult × Store :=
  if address = "" then (.invalidInput, s)
  else if ¬ isValidEthereumAddress address then (.invalidFormat, s)
  else
    let normalizedAddress := jsToLower address
    match s.find? (fun r => r.address == normalizedAddress) with
    | some registration =>
      (.ok true (some (registration.address, registration.registeredAt)), s)
    | none => (.ok false none, s)

/-- `.sort({ registeredAt: -1 })` — descending by `registeredAt`. -/
def regGE (a b : Registration) : Prop := b.registeredAt ≤ a.registeredAt

instance : DecidableRel regGE := fun a b =>
  inferInstanceAs (Decidable (b.registeredAt ≤ a.registeredAt))

instance : IsTotal Registration regGE :=
  ⟨fun a b => Int.le_total b.registeredAt a.registeredAt⟩

instance : IsTrans Registration regGE :=
  ⟨fun _ _ _ h1 h2 => le_trans h2 h1⟩

/-- `.select("address registeredAt")` — the projection of a document to the two
fields a read endpoint returns. -/
def selectFields (r : Registration) : String × Int := (r.address, r.registeredAt)

/-- Body of the GET /api/whitelist/list 200 response (`success: true` carried
implicitly). -/
structure ListResponse where
  count : Nat
  total : Nat
  page : Int
  totalPages : Int
  registrations : List (String × Int)
deriving Repr, DecidableEq

/-- `Math.ceil(totalCount / limit)` (src/server.js:230) for a non-negative
integer `totalCount` and integer `limit`.  For `limit = 0` JS yields `NaN` or
`Infinity`, which ℤ cannot represent; that branch returns 0 and is exercised by
no claim. -/
def jsCeilDiv (total : Nat) (limit : Int) : Int :=
  if 0 < limit then ((total : Int) + limit - 1) / limit
  else if limit < 0 then -((total : Int) / (-limit))
  else 0

/-- GET /api/whitelist/list after the page/limit coercion (src/server.js:215-232):
`skip = (page - 1) * limit`, sort the collection descending by `registeredAt`
(stable, insertion order breaking ties, per the spec's deterministic-tiebreak
requirement), apply the skip and the limit, and project each document with
`.select("address registeredAt")`.  A negative skip would make the Mongo cursor
throw and a negative limit is read as its absolute value; no claim exercises
either, and `Int.toNat` truncation is exact for the non-negative values the
claims use. -/
def listCore (page limit : Int) (s : Store) : ListResponse :=
  let skip := (page - 1) * limit
  let registrations :=
    ((((s.insertionSort regGE).drop skip.toNat).take limit.toNat).map selectFields)
  { count := registrations.length
    total := s.length
    page := page
    totalPages := jsCeilDiv s.length limit
    registrations := registrations }

/-- GET /api/whitelist/list (src/server.js:211-240), from the raw query
parameters: `page = parseInt(req.query.page) || 1`,
`limit = parseInt(req.query.limit) || 50`. -/
def listOp (pageQ limitQ : Option String) (s : Store) : ListResponse × Store :=
  (listCore (orDefault (jsParseIntOpt pageQ) 1) (orDefault (jsParseIntOpt limitQ) 50) s, s)

/-- Milliseconds in a day. -/
def msPerDay : Int := 86400000

/-- `const today = new Date(); today.setHours(0, 0, 0, 0)` (src/server.js:246-247):
midnight of the current day.  The source uses the server's local clock; the spec
pins this to UTC midnight for determinism, i.e. `now - now % 86400000` in epoch
milliseconds. -/
def startOfToday (now : Int) : Int := now - now % msPerDay

/-- `weekAgo.setDate(weekAgo.getDate() - 7)` (src/server.js:252-253): a rolling
7 × 24h window before `now` (exact in the UTC model; a local-time DST shift is
not representable). -/
def weekAgo (now : Int) : Int := now - 7 * msPerDay

/-- `countDocuments({ registeredAt: { $gte: t } })`. -/
def countSince (t : Int) (s : Store) : Nat :=
  (s.filter (fun r => t ≤ r.registeredAt)).length

/-- Body of the GET /api/whitelist/stats 200 response. -/
structure StatsResponse where
  total : Nat
  today : Nat
  lastWeek : Nat
deriving Repr, DecidableEq

/-- GET /api/whitelist/stats (src/server.js:242-273). -/
def statsOp (now : Int) (s : Store) : StatsResponse × Store :=
  ({ total := s.length
     today := countSince (startOfToday now) s
     lastWeek := countSince (weekAgo now) s }, s)

/-- Outcome of DELETE /api/whitelist/:address. -/
inductive RemoveResult where
  /-- 200 "Address removed from whitelist". -/
  | removed : RemoveResult
  /-- 404 "Address not found". -/
  | notFound : RemoveResult
deriving Repr, DecidableEq

/-- DELETE /api/whitelist/:address (src/server.js:275-303): lowercase the raw
path parameter and `findOneAndDelete` on the exact normalized value — no format
validation.  `findOneAndDelete` removes the first matching document. -/
def removeOp (address : String) (s : Store) : RemoveResult × Store :=
  let normalizedAddress := jsToLower address
  match s.find? (fun r => r.address == normalizedAddress) with
  | some _ => (.removed, s.eraseP (fun r => r.address == normalizedAddress))
  | none => (.notFound, s)

/-- One client-visible operation of the Registry Service. -/
inductive Op where
  | register (address : String) (now : Int) (ip ua : Option String) : Op
  | check (address : String) : Op
  | list (pageQ limitQ : Option String) : Op
  | stats (now : Int) : Op
  | remove (address : String) : Op

/-- The store after one operation. -/
def applyOp (s : Store) : Op → Store
  | .register a now ip ua => (registerOp a now ip ua s).2
  | .check a => (checkOp a s).2
  | .list p l => (listOp p l s).2
  | .stats now => (statsOp now s).2
  | .remove a => (removeOp a s).2

/-- The store reached from the empty collection by a sequence of operations. -/
def runOps (ops : List Op) : Store := ops.foldl applyOp []

/-- A small concrete store (three registrations, unsorted timestamps) used to
instantiate universally quantified statements at concrete inputs. -/
def sampleStore : Store :=
  [{ address := "0xaaaaaaaaaaaaaaaaaaaaaaaaaaaaaaaaaaaaaaaa", registeredAt := 3,
     ipAddress := none, userAgent := none },
   { address := "0xbbbbbbbbbbbbbbbbbbbbbbbbbbbbbbbbbbbbbbbb", registeredAt := 7,
     ipAddress := some "10.0.0.1", userAgent := none },
   { address := "0xcccccccccccccccccccccccccccccccccccccccc", registeredAt := 5,
     ipAddress := none, userAgent := some "curl" }]

/-- The data-integrity invariant of the collection: addresses are pairwise
distinct (the schema's `unique: true` index), and every stored address passed
the validator before being normalized and saved. -/
def StoreOk (s : Store) : Prop :=
  (s.map Registration.address).Nodup ∧
    ∀ r ∈ s, isValidEthereumAddress r.address = true

/-- The hex-digit class of the spec's Validator contract, in the spec's order
`[0-9a-fA-F]`: 0-9 (48-57), a-f (97-102), A-F (65-70). -/
def specHexDigit (c : Char) : Prop :=
  (48 ≤ c.toNat ∧ c.toNat ≤ 57) ∨ (97 ≤ c.toNat ∧ c.toNat ≤ 102) ∨
    (65 ≤ c.toNat ∧ c.toNat ≤ 70)

/-- Modelled from the spec's Validator contract (spec §4.1), not from the code:
the input matches `^0x[0-9a-fA-F]{40}$` exactly as a full-string match — the
whole character sequence is the literal `0`, then `x`, then exactly 40
characters of the hex class, with nothing before or after (in particular no
surrounding whitespace). -/
def specAddressMatch (s : String) : Prop :=
  ∃ body : List Char,
    s.data = '0' :: 'x' :: body ∧ body.length = 40 ∧ ∀ c ∈ body, specHexDigit c

/-! ### Basic lemmas about characters and the validator -/

lemma char_toNat_ofNat (m : Nat) (h : m < 55296) : (Char.ofNat m).toNat = m := by
  unfold Char.ofNat
  rw [dif_pos (Or.inl h)]
  rfl

lemma isHexChar_lowerChar {c : Char} (h : isHexChar c = true) :
    isHexChar (lowerChar c) = true := by
  unfold lowerChar
  split
  · next hc =>
    have hv : (Char.ofNat (c.toNat + 32)).toNat = c.toNat + 32 :=
      char_toNat_ofNat _ (by omega)
    simp only [isHexChar, Bool.or_eq_true, Bool.and_eq_true, decide_eq_true_eq] at h ⊢
    rw [hv]
    omega
  · exact h

lemma jsToLower_data (s : String) : (jsToLower s).data = s.data.map lowerChar := rfl

lemma valid_iff (s : String) :
    isValidEthereumAddress s = true ↔
      ∃ body : List Char,
        s.data = '0' :: 'x' :: body ∧ body.length = 40 ∧ ∀ c ∈ body, isHexChar c = true := by
  unfold isValidEthereumAddress
  constructor
  · intro h
    split at h
    · next rest heq =>
      rw [Bool.and_eq_true, beq_iff_eq, List.all_eq_true] at h
      exact ⟨rest, heq, h.1, h.2⟩
    · exact absurd h (by simp)
  · rintro ⟨body, heq, hlen, hhex⟩
    rw [heq]
    simp only [List.all_eq_true, Bool.and_eq_true, beq_iff_eq]
    exact ⟨hlen, hhex⟩

lemma valid_ne_empty {s : String} (h : isValidEthereumAddress s = true) : s ≠ "" := by
  intro hs
  rw [valid_iff] at h
  obtain ⟨body, heq, -, -⟩ := h
  rw [hs] at heq
  exact List.noConfusion heq

lemma valid_jsToLower {s : String} (h : isValidEthereumAddress s = true) :
    isValidEthereumAddress (jsToLower s) = true := by
  rw [valid_iff] at h ⊢
  obtain ⟨body, heq, hlen, hhex⟩ := h
  refine ⟨body.map lowerChar, ?_, by simp [hlen], ?_⟩
  · rw [jsToLower_data, heq]
    simp only [List.map_cons]
    rw [show lowerChar '0' = '0' from by decide, show lowerChar 'x' = 'x' from by decide]
  · intro c hc
    obtain ⟨d, hd, rfl⟩ := List.mem_map.1 hc
    exact isHexChar_lowerChar (hhex d hd)

/-! ### Branch lemmas for the operations -/

lemma registerOp_invalid {a : String} (t : Int) (ip ua : Option String) (s : Store)
    (hne : a ≠ "") (h : isValidEthereumAddress a = false) :
    registerOp a t ip ua s = (.invalidFormat, s) := by
  unfold registerOp
  rw [if_neg hne, if_pos (by simp [h])]

lemma registerOp_new {a : String} (t : Int) (ip ua : Option String) (s : Store)
    (hv : isValidEthereumAddress a = true)
    (hnone : s.find? (fun r => r.address == jsToLower a) = none) :
    registerOp a t ip ua s =
      (.created (jsToLower a) t,
        s ++ [{ address := jsToLower a, registeredAt := t, ipAddress := ip, userAgent := ua }]) := by
  unfold registerOp
  rw [if_neg (valid_ne_empty hv), if_neg (by simp [hv])]
  simp only [hnone]

lemma registerOp_existing {a : String} (t : Int) (ip ua : Option String) (s : Store)
    {ex : Registration} (hv : isValidEthereumAddress a = true)
    (hsome : s.find? (fun r => r.address == jsToLower a) = some ex) :
    registerOp a t ip ua s = (.alreadyRegistered ex.address ex.registeredAt, s) := by
  unfold registerOp
  rw [if_neg (valid_ne_empty hv), if_neg (by simp [hv])]
  simp only [hsome]

lemma removeOp_none {a : String} (s : Store)
    (hnone : s.find? (fun r => r.address == jsToLower a) = none) :
    removeOp a s = (.notFound, s) := by
  unfold removeOp
  simp only [hnone]

lemma checkOp_store (a : String) (s : Store) : (checkOp a s).2 = s := by
  unfold checkOp
  split
  · rfl
  · split
    · rfl
    · cases hf : s.find? (fun r => r.address == jsToLower a) <;> simp only [hf]

/-! ### The store invariant is preserved by every operation -/

lemma storeOk_nil : StoreOk [] :=
  ⟨List.nodup_nil, fun r hr => absurd hr (List.not_mem_nil r)⟩

lemma storeOk_applyOp {s : Store} (h : StoreOk s) (op : Op) : StoreOk (applyOp s op) := by
  obtain ⟨hnd, hval⟩ := h
  cases op with
  | register a now ip ua =>
    show StoreOk (registerOp a now ip ua s).2
    by_cases hne : a = ""
    · unfold registerOp
      rw [if_pos hne]
      exact ⟨hnd, hval⟩
    · by_cases hv : isValidEthereumAddress a = true
      · cases hf : s.find? (fun r => r.address == jsToLower a) with
        | some ex =>
          rw [registerOp_existing now ip ua s hv hf]
          exact ⟨hnd, hval⟩
        | none =>
          rw [registerOp_new now ip ua s hv hf]
          constructor
          · rw [List.map_append]
            rw [List.nodup_append]
            refine ⟨hnd, by simp, ?_⟩
            intro x hx hx1
            simp only [List.map_cons, List.map_nil, List.mem_singleton] at hx1
            obtain ⟨r, hr, rfl⟩ := List.mem_map.1 hx
            rw [List.find?_eq_none] at hf
            exact absurd (by simp [hx1] : (r.address == jsToLower a) = true) (hf r hr)
          · intro r hr
            rcases List.mem_append.1 hr with hmem | hmem
            · exact hval r hmem
            · rw [List.mem_singleton.1 hmem]
              exact valid_jsToLower hv
      · rw [registerOp_invalid now ip ua s hne (by simpa using hv)]
        exact ⟨hnd, hval⟩
  | check a =>
    show StoreOk (checkOp a s).2
    rw [checkOp_store]
    exact ⟨hnd, hval⟩
  | list p l => exact ⟨hnd, hval⟩
  | stats now => exact ⟨hnd, hval⟩
  | remove a =>
    show StoreOk (removeOp a s).2
    unfold removeOp
    cases hf : s.find? (fun r => r.address == jsToLower a) with
    | none =>
      simp only [hf]
      exact ⟨hnd, hval⟩
    | some ex =>
      simp only [hf]
      constructor
      · exact hnd.sublist ((List.eraseP_sublist s).map Registration.address)
      · intro r hr
        exact hval r (List.mem_of_mem_eraseP hr)

lemma storeOk_runOps (ops : List Op) : StoreOk (runOps ops) := by
  suffices h : ∀ s, StoreOk s → StoreOk (ops.foldl applyOp s) from h [] storeOk_nil
  induction ops with
  | nil => exact fun s hs => hs
  | cons op tl ih => exact fun s hs => ih _ (storeOk_applyOp hs op)

/-! ### Reads depend only on the address/registeredAt projection of the store -/

lemma find?_proj {s₁ s₂ : Store}
    (h : s₁.map selectFields = s₂.map selectFields) (na : String) :
    (s₁.find? (fun r => r.address == na)).map selectFields
      = (s₂.find? (fun r => r.address == na)).map selectFields := by
  induction s₁ generalizing s₂ with
  | nil =>
    cases s₂ with
    | nil => rfl
    | cons b u => exact absurd h (by simp)
  | cons a t ih =>
    cases s₂ with
    | nil => exact absurd h (by simp)
    | cons b u =>
      simp only [List.map_cons, List.cons.injEq] at h
      obtain ⟨hab, htu⟩ := h
      have haddr : a.address = b.address := congrArg Prod.fst hab
      rw [List.find?_cons, List.find?_cons, haddr]
      cases hb : (b.address == na) with
      | true => simpa using hab
      | false => exact ih htu

lemma orderedInsert_proj {a₁ a₂ : Registration} {l₁ l₂ : List Registration}
    (ha : selectFields a₁ = selectFields a₂)
    (hl : l₁.map selectFields = l₂.map selectFields) :
    (l₁.orderedInsert regGE a₁).map selectFields
      = (l₂.orderedInsert regGE a₂).map selectFields := by
  have hats : a₁.registeredAt = a₂.registeredAt := congrArg Prod.snd ha
  induction l₁ generalizing l₂ with
  | nil =>
    cases l₂ with
    | nil => simpa using ha
    | cons b u => exact absurd hl (by simp)
  | cons b₁ m₁ ih =>
    cases l₂ with
    | nil => exact absurd hl (by simp)
    | cons b₂ m₂ =>
      simp only [List.map_cons, List.cons.injEq] at hl
      obtain ⟨hb, hm⟩ := hl
      have hts : b₁.registeredAt = b₂.registeredAt := congrArg Prod.snd hb
      simp only [List.orderedInsert]
      by_cases hr : regGE a₁ b₁
      · rw [if_pos hr, if_pos (show regGE a₂ b₂ by
          simp only [regGE] at hr ⊢; omega)]
        simp only [List.map_cons]
        rw [ha, hb, hm]
      · rw [if_neg hr, if_neg (show ¬ regGE a₂ b₂ by
          simp only [regGE] at hr ⊢; omega)]
        simp only [List.map_cons]
        rw [hb, ih hm]

lemma insertionSort_proj {l₁ l₂ : List Registration}
    (h : l₁.map selectFields = l₂.map selectFields) :
    (l₁.insertionSort regGE).map selectFields
      = (l₂.insertionSort regGE).map selectFields := by
  induction l₁ generalizing l₂ with
  | nil =>
    cases l₂ with
    | nil => rfl
    | cons b u => exact absurd h (by simp)
  | cons a t ih =>
    cases l₂ with
    | nil => exact absurd h (by simp)
    | cons b u =>
      simp only [List.map_cons, List.cons.injEq] at h
      exact orderedInsert_proj h.1 (ih h.2)

/-! ### Pagination arithmetic -/

lemma flatten_chunks {α : Type} (lim : Nat) (L : List α) (N : Nat) :
    ((List.range N).map (fun i => (L.drop (i * lim)).take lim)).flatten
      = L.take (N * lim) := by
  induction N with
  | zero => simp
  | succ n ih =>
    rw [List.range_succ, List.map_append, List.flatten_append, ih]
    simp [Nat.succ_mul, List.take_add]

lemma le_ceilDiv_mul (t m : Nat) (hm : 0 < m) : t ≤ ((t + m - 1) / m) * m := by
  have h1 := Nat.div_add_mod (t + m - 1) m
  have h2 : (t + m - 1) % m < m := Nat.mod_lt _ hm
  rw [Nat.mul_comm]
  generalize hq : (t + m - 1) / m = q at h1 ⊢
  generalize hr : (t + m - 1) % m = r at h1 h2
  generalize hP : m * q = P at h1 ⊢
  omega

lemma jsCeilDiv_natCast (t m : Nat) (hm : 0 < m) :
    jsCeilDiv t (m : Int) = (((t + m - 1) / m : Nat) : Int) := by
  unfold jsCeilDiv
  rw [if_pos (by exact_mod_cast hm : (0 : Int) < (m : Int))]
  have h1 : (((t + m - 1 : Nat)) : Int) = (t : Int) + (m : Int) - 1 := by omega
  rw [← h1, Int.natCast_div]

lemma jsCeilDiv_eq_ceil (t : Nat) (l : Int) (hl : 0 < l) :
    jsCeilDiv t l = ⌈(t : ℚ) / (l : ℚ)⌉ := by
  unfold jsCeilDiv
  rw [if_pos hl]
  symm
  rw [Int.ceil_eq_iff]
  have key := Int.ediv_add_emod ((t : Int) + l - 1) l
  have h2 := Int.emod_nonneg ((t : Int) + l - 1) (ne_of_gt hl)
  have h3 := Int.emod_lt_of_pos ((t : Int) + l - 1) hl
  have hlq : (0 : ℚ) < (l : ℚ) := by exact_mod_cast hl
  constructor
  · rw [lt_div_iff₀ hlq]
    have hi : (((t : Int) + l - 1) / l - 1) * l < (t : Int) := by nlinarith
    exact_mod_cast hi
  · rw [div_le_iff₀ hlq]
    have hi : (t : Int) ≤ (((t : Int) + l - 1) / l) * l := by nlinarith
    exact_mod_cast hi

/-! ### Counting lemmas for the stats endpoint -/

lemma countSince_le_length (t : Int) (s : Store) : countSince t s ≤ s.length :=
  (List.filter_sublist s).length_le

lemma countSince_anti {t₁ t₂ : Int} (h : t₂ ≤ t₁) (s : Store) :
    countSince t₁ s ≤ countSince t₂ s := by
  unfold countSince
  rw [← List.countP_eq_length_filter, ← List.countP_eq_length_filter]
  refine List.countP_mono_left (fun r hr hp => ?_)
  simp only [decide_eq_true_eq] at hp ⊢
  omega

lemma checkOp_invalid {a : String} (s : Store) (hne : a ≠ "")
    (h : isValidEthereumAddress a = false) : checkOp a s = (.invalidFormat, s) := by
  unfold checkOp
  rw [if_neg hne, if_pos (by simp [h])]

lemma checkOp_found {a : String} (s : Store) {x : Registration}
    (hv : isValidEthereumAddress a = true)
    (hf : s.find? (fun r => r.address == jsToLower a) = some x) :
    checkOp a s = (.ok true (some (x.address, x.registeredAt)), s) := by
  unfold checkOp
  rw [if_neg (valid_ne_empty hv), if_neg (by simp [hv])]
  simp only [hf]

lemma checkOp_not_found {a : String} (s : Store)
    (hv : isValidEthereumAddress a = true)
    (hf : s.find? (fun r => r.address == jsToLower a) = none) :
    checkOp a s = (.ok false none, s) := by
  unfold checkOp
  rw [if_neg (valid_ne_empty hv), if_neg (by simp [hv])]
  simp only [hf]

/-! ### The claims -/

/-- C2: the validator `isValidEthereumAddress(input)` returns true if and only
if `input` matches `^0x[0-9a-fA-F]{40}$` as a full-string match (no surrounding
whitespace tolerated); it is a pure function of its input and is
case-insensitive on the 40 hex characters (the class admits both cases). -/
theorem C2_validator_matches_regex (s : String) :
    isValidEthereumAddress s = true ↔ specAddressMatch s := by
  rw [valid_iff]
  unfold specAddressMatch
  constructor
  · rintro ⟨body, heq, hlen, hhex⟩
    refine ⟨body, heq, hlen, fun c hc => ?_⟩
    have h := hhex c hc
    simp only [isHexChar, Bool.or_eq_true, Bool.and_eq_true, decide_eq_true_eq] at h
    unfold specHexDigit
    omega
  · rintro ⟨body, heq, hlen, hhex⟩
    refine ⟨body, heq, hlen, fun c hc => ?_⟩
    have h := hhex c hc
    unfold specHexDigit at h
    simp only [isHexChar, Bool.or_eq_true, Bool.and_eq_true, decide_eq_true_eq]
    omega

/-- C3, as stated, is false at this input: the address
`0Xabcdef...01` (uppercase `X`) fails the validator, yet `remove` lowercases it,
matches the stored normalized entry, deletes the row and reports success —
remove does silently succeed on an input that fails the Validator, on a
reachable store. -/
theorem C3_counterexample :
    isValidEthereumAddress "0Xabcdef0123456789abcdef0123456789abcdef01" = false ∧
    (removeOp "0Xabcdef0123456789abcdef0123456789abcdef01"
        (runOps [Op.register "0xabcdef0123456789abcdef0123456789abcdef01" 7 none none])).1
      = RemoveResult.removed ∧
    (removeOp "0Xabcdef0123456789abcdef0123456789abcdef01"
        (runOps [Op.register "0xabcdef0123456789abcdef0123456789abcdef01" 7 none none])).2
      = [] := by
  decide

/-- C3 (amended): for every input address whose LOWERCASED form fails the
Validator, remove matches nothing on any reachable store and returns NotFound
with the store unchanged.  (An invalid input whose lowercased form is a stored
normalized address — e.g. an `0X`-prefixed variant — can still match and
delete, as `C3_counterexample` shows.) -/
theorem C3_remove_unmatchable_not_found (ops : List Op) (a : String)
    (h : isValidEthereumAddress (jsToLower a) = false) :
    removeOp a (runOps ops) = (RemoveResult.notFound, runOps ops) := by
  have hok := storeOk_runOps ops
  apply removeOp_none
  cases hf : (runOps ops).find? (fun r => r.address == jsToLower a) with
  | none => rfl
  | some x =>
    exfalso
    have hx : x ∈ runOps ops := List.mem_of_find?_eq_some hf
    have hpx := List.find?_some hf
    rw [beq_iff_eq] at hpx
    have hvx := hok.2 x hx
    rw [hpx, h] at hvx
    exact Bool.noConfusion hvx

/-- Witness for `C3_remove_unmatchable_not_found` at a concrete input. -/
theorem C3_witness :
    isValidEthereumAddress (jsToLower "not-an-address") = false ∧
    removeOp "not-an-address"
        (runOps [Op.register "0xabcdef0123456789abcdef0123456789abcdef01" 7 none none])
      = (RemoveResult.notFound,
          runOps [Op.register "0xabcdef0123456789abcdef0123456789abcdef01" 7 none none]) :=
  ⟨by decide,
   C3_remove_unmatchable_not_found
     [Op.register "0xabcdef0123456789abcdef0123456789abcdef01" 7 none none]
     "not-an-address" (by decide)⟩

/-- C4, as stated, is false in its last part: a `page` (or `limit`) query value
of `"0"` parses to 0, which is falsy in JS, so `parseInt(...) || default` falls
back to the default instead of passing 0 through to the skip/limit
computation: the served page is 1, not 0. -/
theorem C4_counterexample :
    orDefault (jsParseIntOpt (some "0")) 1 = 1 ∧
    (listOp (some "0") none []).1.page = 1 ∧ (1 : Int) ≠ 0 := by
  decide

/-- C4 (amended): in the list operation, `page` defaults to 1 and `limit` to
50; non-numeric or absent values fall back to these defaults without a
validation error; NEGATIVE parsed values are passed through uncorrected, while
a parsed value of ZERO also falls back to the default (JS `||` treats 0 as
falsy). -/
theorem C4_page_limit_defaults :
    ((∀ s : Store, (listOp none none s).1.page = 1) ∧
      orDefault (jsParseIntOpt none) 1 = 1 ∧ orDefault (jsParseIntOpt none) 50 = 50) ∧
    (∀ q : String, jsParseInt q = none →
      orDefault (jsParseIntOpt (some q)) 1 = 1 ∧ orDefault (jsParseIntOpt (some q)) 50 = 50) ∧
    (∀ (q : String) (n : Int), jsParseInt q = some n → n < 0 →
      orDefault (jsParseIntOpt (some q)) 1 = n ∧ orDefault (jsParseIntOpt (some q)) 50 = n) ∧
    (∀ q : String, jsParseInt q = some 0 →
      orDefault (jsParseIntOpt (some q)) 1 = 1 ∧ orDefault (jsParseIntOpt (some q)) 50 = 50) ∧
    (∀ (pageQ limitQ : Option String) (s : Store),
      (listOp pageQ limitQ s).1
        = listCore (orDefault (jsParseIntOpt pageQ) 1) (orDefault (jsParseIntOpt limitQ) 50) s) := by
  refine ⟨⟨fun s => rfl, rfl, rfl⟩, ?_, ?_, ?_, fun pageQ limitQ s => rfl⟩
  · intro q hq
    simp [orDefault, jsParseIntOpt, hq]
  · intro q n hq hn
    have hn0 : n ≠ 0 := by omega
    simp [orDefault, jsParseIntOpt, hq, hn0]
  · intro q hq
    simp [orDefault, jsParseIntOpt, hq]

/-- Witness for `C4_page_limit_defaults` at concrete query strings. -/
theorem C4_witness :
    (orDefault (jsParseIntOpt (some "abc")) 1 = 1 ∧
      orDefault (jsParseIntOpt (some "abc")) 50 = 50) ∧
    (orDefault (jsParseIntOpt (some "-2")) 1 = -2 ∧
      orDefault (jsParseIntOpt (some "-2")) 50 = -2) ∧
    (orDefault (jsParseIntOpt (some "0")) 1 = 1 ∧
      orDefault (jsParseIntOpt (some "0")) 50 = 50) :=
  ⟨C4_page_limit_defaults.2.1 "abc" (by decide),
   C4_page_limit_defaults.2.2.1 "-2" (-2) (by decide) (by decide),
   C4_page_limit_defaults.2.2.2.1 "0" (by decide)⟩

/-- C6: for every store state and every current time, the stats counts satisfy
`total ≥ lastWeek ≥ today ≥ 0` — the all-time count dominates the rolling
7-day count, which dominates the since-midnight count. -/
theorem C6_stats_monotone (now : Int) (s : Store) :
    (statsOp now s).1.lastWeek ≤ (statsOp now s).1.total ∧
    (statsOp now s).1.today ≤ (statsOp now s).1.lastWeek ∧
    0 ≤ (statsOp now s).1.today := by
  refine ⟨countSince_le_length _ s, ?_, Nat.zero_le _⟩
  apply countSince_anti
  show weekAgo now ≤ startOfToday now
  unfold weekAgo startOfToday msPerDay
  omega

/-- C8: the check, list and stats operations have no side effects — for every
store state and every input, the store after the operation is exactly the
store before it, every Registration and every field included. -/
theorem C8_reads_no_side_effects (a : String) (pageQ limitQ : Option String)
    (now : Int) (s : Store) :
    (checkOp a s).2 = s ∧ (listOp pageQ limitQ s).2 = s ∧ (statsOp now s).2 = s :=
  ⟨checkOp_store a s, rfl, rfl⟩

/-- C9 (implicit): register and check reject with InvalidFormat any non-empty
input that does not start with the two lowercase characters `0x` — in
particular `0X` followed by 40 valid hex characters is rejected — even though
the 40 hex characters themselves are accepted in either case. -/
theorem C9_lowercase_0x_required :
    (∀ (a : String) (t : Int) (ip ua : Option String) (s : Store),
      a ≠ "" → a.data.take 2 ≠ ['0', 'x'] →
      (registerOp a t ip ua s).1 = RegisterResult.invalidFormat ∧
      (checkOp a s).1 = CheckResult.invalidFormat) ∧
    (∀ body : List Char, body.length = 40 → (∀ c ∈ body, isHexChar c = true) →
      isValidEthereumAddress ⟨'0' :: 'X' :: body⟩ = false ∧
      isValidEthereumAddress ⟨'0' :: 'x' :: body⟩ = true) := by
  constructor
  · intro a t ip ua s hne hp
    have hv : isValidEthereumAddress a = false := by
      cases h : isValidEthereumAddress a
      · rfl
      · exfalso
        obtain ⟨body, heq, -, -⟩ := (valid_iff a).1 h
        apply hp
        rw [heq]
        rfl
    exact ⟨by rw [registerOp_invalid t ip ua s hne hv], by rw [checkOp_invalid s hne hv]⟩
  · intro body hlen hhex
    constructor
    · cases h : isValidEthereumAddress ⟨'0' :: 'X' :: body⟩
      · rfl
      · exfalso
        obtain ⟨b2, heq, -, -⟩ := (valid_iff _).1 h
        rw [List.cons.injEq, List.cons.injEq] at heq
        exact absurd heq.2.1 (by decide)
    · exact (valid_iff _).2 ⟨body, rfl, hlen, hhex⟩

/-- Witness for `C9_lowercase_0x_required` at concrete inputs. -/
theorem C9_witness :
    ((registerOp "zz" 0 none none []).1 = RegisterResult.invalidFormat ∧
      (checkOp "zz" []).1 = CheckResult.invalidFormat) ∧
    (isValidEthereumAddress ⟨'0' :: 'X' :: List.replicate 40 'a'⟩ = false ∧
      isValidEthereumAddress ⟨'0' :: 'x' :: List.replicate 40 'a'⟩ = true) :=
  ⟨C9_lowercase_0x_required.1 "zz" 0 none none [] (by decide) (by decide),
   C9_lowercase_0x_required.2 (List.replicate 40 'a') (by decide) (by decide)⟩

/-- C1: for every sequence of operations the store holds at most one
Registration per normalized (lowercased) address; and registering the same
address twice — regardless of the letter case of either call — leaves exactly
one persisted Registration, with the second call failing AlreadyRegistered
while surfacing the original `registeredAt` and leaving the store unchanged. -/
theorem C1_at_most_one_registration :
    (∀ ops : List Op, ((runOps ops).map Registration.address).Nodup) ∧
    (∀ (s : Store) (a₁ a₂ : String) (t₁ t₂ : Int) (ip₁ ua₁ ip₂ ua₂ : Option String),
      isValidEthereumAddress a₁ = true →
      isValidEthereumAddress a₂ = true →
      jsToLower a₂ = jsToLower a₁ →
      s.find? (fun r => r.address == jsToLower a₁) = none →
      (registerOp a₁ t₁ ip₁ ua₁ s).1 = RegisterResult.created (jsToLower a₁) t₁ ∧
      ((registerOp a₁ t₁ ip₁ ua₁ s).2.map Registration.address).count (jsToLower a₁) = 1 ∧
      (registerOp a₂ t₂ ip₂ ua₂ (registerOp a₁ t₁ ip₁ ua₁ s).2).1
        = RegisterResult.alreadyRegistered (jsToLower a₁) t₁ ∧
      (registerOp a₂ t₂ ip₂ ua₂ (registerOp a₁ t₁ ip₁ ua₁ s).2).2
        = (registerOp a₁ t₁ ip₁ ua₁ s).2) := by
  constructor
  · exact fun ops => (storeOk_runOps ops).1
  · intro s a₁ a₂ t₁ t₂ ip₁ ua₁ ip₂ ua₂ hv1 hv2 hlow hnone
    have h1 := registerOp_new t₁ ip₁ ua₁ s hv1 hnone
    have hnotmem : jsToLower a₁ ∉ s.map Registration.address := by
      intro hmem
      obtain ⟨x, hx, hxa⟩ := List.mem_map.1 hmem
      rw [List.find?_eq_none] at hnone
      exact hnone x hx (by simp [hxa])
    have hfind2 :
        ((registerOp a₁ t₁ ip₁ ua₁ s).2).find? (fun r => r.address == jsToLower a₂)
          = some { address := jsToLower a₁, registeredAt := t₁,
                   ipAddress := ip₁, userAgent := ua₁ } := by
      rw [h1, hlow, List.find?_append, hnone]
      simp [List.find?]
    refine ⟨by rw [h1], ?_, ?_, ?_⟩
    · rw [h1, List.map_append, List.count_append, List.count_eq_zero.2 hnotmem]
      simp
    · rw [registerOp_existing t₂ ip₂ ua₂ _ hv2 hfind2]
    · rw [registerOp_existing t₂ ip₂ ua₂ _ hv2 hfind2]

/-- Witness for `C1_at_most_one_registration` (second part) at two
differently-cased spellings of one address. -/
theorem C1_witness :
    (registerOp "0xABCDEF0123456789abcdef0123456789abcdef01" 3 (some "ip1") none []).1
      = RegisterResult.created (jsToLower "0xABCDEF0123456789abcdef0123456789abcdef01") 3 ∧
    ((registerOp "0xABCDEF0123456789abcdef0123456789abcdef01" 3 (some "ip1") none []).2.map
        Registration.address).count
          (jsToLower "0xABCDEF0123456789abcdef0123456789abcdef01") = 1 ∧
    (registerOp "0xabcdef0123456789ABCDEF0123456789ABCDEF01" 9 none (some "ua2")
        (registerOp "0xABCDEF0123456789abcdef0123456789abcdef01" 3 (some "ip1") none []).2).1
      = RegisterResult.alreadyRegistered
          (jsToLower "0xABCDEF0123456789abcdef0123456789abcdef01") 3 ∧
    (registerOp "0xabcdef0123456789ABCDEF0123456789ABCDEF01" 9 none (some "ua2")
        (registerOp "0xABCDEF0123456789abcdef0123456789abcdef01" 3 (some "ip1") none []).2).2
      = (registerOp "0xABCDEF0123456789abcdef0123456789abcdef01" 3 (some "ip1") none []).2 :=
  C1_at_most_one_registration.2 []
    "0xABCDEF0123456789abcdef0123456789abcdef01"
    "0xabcdef0123456789ABCDEF0123456789ABCDEF01"
    3 9 (some "ip1") none none (some "ua2")
    (by decide) (by decide) (by decide) (by decide)

lemma listCore_proj {s₁ s₂ : Store}
    (h : s₁.map selectFields = s₂.map selectFields) (page limit : Int) :
    listCore page limit s₁ = listCore page limit s₂ := by
  have hlen : s₁.length = s₂.length := by
    have hc := congrArg List.length h
    simpa using hc
  have hsort := insertionSort_proj h
  unfold listCore
  simp only [List.map_take, List.map_drop, hsort, hlen]

/-- C7: no response of register (success or AlreadyRegistered), check or list
contains the stored ipAddress/userAgent: two stores that agree on every
Registration's address and registeredAt — differing at most in
ipAddress/userAgent — produce identical responses for these operations,
whatever ip/userAgent the register call itself captures. -/
theorem C7_responses_hide_ip_userAgent (s₁ s₂ : Store)
    (h : s₁.map selectFields = s₂.map selectFields) :
    (∀ (a : String) (t : Int) (ip₁ ua₁ ip₂ ua₂ : Option String),
      (registerOp a t ip₁ ua₁ s₁).1 = (registerOp a t ip₂ ua₂ s₂).1) ∧
    (∀ a : String, (checkOp a s₁).1 = (checkOp a s₂).1) ∧
    (∀ pageQ limitQ : Option String, (listOp pageQ limitQ s₁).1 = (listOp pageQ limitQ s₂).1) := by
  refine ⟨?_, ?_, ?_⟩
  · intro a t ip₁ ua₁ ip₂ ua₂
    by_cases hne : a = ""
    · unfold registerOp
      rw [if_pos hne, if_pos hne]
    · by_cases hv : isValidEthereumAddress a = true
      · have hfp := find?_proj h (jsToLower a)
        cases hf1 : s₁.find? (fun r => r.address == jsToLower a) with
        | some x1 =>
          cases hf2 : s₂.find? (fun r => r.address == jsToLower a) with
          | some x2 =>
            rw [hf1, hf2] at hfp
            simp only [Option.map_some', Option.some.injEq] at hfp
            rw [registerOp_existing t ip₁ ua₁ s₁ hv hf1,
              registerOp_existing t ip₂ ua₂ s₂ hv hf2]
            have hfp2 : (x1.address, x1.registeredAt) = (x2.address, x2.registeredAt) := hfp
            rw [Prod.mk.injEq] at hfp2
            rw [hfp2.1, hfp2.2]
          | none =>
            rw [hf1, hf2] at hfp
            exact absurd hfp (by simp)
        | none =>
          cases hf2 : s₂.find? (fun r => r.address == jsToLower a) with
          | some x2 =>
            rw [hf1, hf2] at hfp
            exact absurd hfp (by simp)
          | none =>
            rw [registerOp_new t ip₁ ua₁ s₁ hv hf1, registerOp_new t ip₂ ua₂ s₂ hv hf2]
      · have hvf : isValidEthereumAddress a = false := by simpa using hv
        rw [registerOp_invalid t ip₁ ua₁ s₁ hne hvf, registerOp_invalid t ip₂ ua₂ s₂ hne hvf]
  · intro a
    by_cases hne : a = ""
    · unfold checkOp
      rw [if_pos hne, if_pos hne]
    · by_cases hv : isValidEthereumAddress a = true
      · have hfp := find?_proj h (jsToLower a)
        cases hf1 : s₁.find? (fun r => r.address == jsToLower a) with
        | some x1 =>
          cases hf2 : s₂.find? (fun r => r.address == jsToLower a) with
          | some x2 =>
            rw [hf1, hf2] at hfp
            simp only [Option.map_some', Option.some.injEq] at hfp
            rw [checkOp_found s₁ hv hf1, checkOp_found s₂ hv hf2]
            have hfp2 : (x1.address, x1.registeredAt) = (x2.address, x2.registeredAt) := hfp
            rw [Prod.mk.injEq] at hfp2
            rw [hfp2.1, hfp2.2]
          | none =>
            rw [hf1, hf2] at hfp
            exact absurd hfp (by simp)
        | none =>
          cases hf2 : s₂.find? (fun r => r.address == jsToLower a) with
          | some x2 =>
            rw [hf1, hf2] at hfp
            exact absurd hfp (by simp)
          | none =>
            rw [checkOp_not_found s₁ hv hf1, checkOp_not_found s₂ hv hf2]
      · have hvf : isValidEthereumAddress a = false := by simpa using hv
        rw [checkOp_invalid s₁ hne hvf, checkOp_invalid s₂ hne hvf]
  · intro pageQ limitQ
    exact listCore_proj h _ _

/-- Witness for `C7_responses_hide_ip_userAgent`: two one-element stores that
differ exactly in ipAddress and userAgent. -/
theorem C7_witness :
    (registerOp "0xabcdef0123456789abcdef0123456789abcdef01" 5 (some "ipA") (some "uaA")
        [{ address := "0xabcdef0123456789abcdef0123456789abcdef01", registeredAt := 1,
           ipAddress := some "ip-kept-secret", userAgent := none }]).1
      = (registerOp "0xabcdef0123456789abcdef0123456789abcdef01" 5 (some "ipB") none
        [{ address := "0xabcdef0123456789abcdef0123456789abcdef01", registeredAt := 1,
           ipAddress := none, userAgent := some "ua-kept-secret" }]).1 ∧
    (checkOp "0xabcdef0123456789abcdef0123456789abcdef01"
        [{ address := "0xabcdef0123456789abcdef0123456789abcdef01", registeredAt := 1,
           ipAddress := some "ip-kept-secret", userAgent := none }]).1
      = (checkOp "0xabcdef0123456789abcdef0123456789abcdef01"
        [{ address := "0xabcdef0123456789abcdef0123456789abcdef01", registeredAt := 1,
           ipAddress := none, userAgent := some "ua-kept-secret" }]).1 ∧
    (listOp none none
        [{ address := "0xabcdef0123456789abcdef0123456789abcdef01", registeredAt := 1,
           ipAddress := some "ip-kept-secret", userAgent := none }]).1
      = (listOp none none
        [{ address := "0xabcdef0123456789abcdef0123456789abcdef01", registeredAt := 1,
           ipAddress := none, userAgent := some "ua-kept-secret" }]).1 :=
  ⟨(C7_responses_hide_ip_userAgent _ _ (by decide)).1
      "0xabcdef0123456789abcdef0123456789abcdef01" 5 (some "ipA") (some "uaA") (some "ipB") none,
   (C7_responses_hide_ip_userAgent _ _ (by decide)).2.1
      "0xabcdef0123456789abcdef0123456789abcdef01",
   (C7_responses_hide_ip_userAgent _ _ (by decide)).2.2 none none⟩

/-- C5: for every store and positive page/limit, `total` is the count of all
registrations regardless of page and limit, `totalPages = ceil(total/limit)`,
`count` is the length of the returned page slice, the slice is the
`skip = (page-1)*limit` / `limit` window of the sorted projection, and
concatenating the slices of pages 1..totalPages in order yields all
registrations (projected to address/registeredAt) sorted by registeredAt
descending, with no duplicates and no omissions (a permutation of the store's
projection). -/
theorem C5_list_pagination (limit : Int) (hl : 0 < limit) (s : Store) :
    (∀ page : Int, (listCore page limit s).total = s.length) ∧
    (∀ page : Int, (listCore page limit s).totalPages = ⌈(s.length : ℚ) / (limit : ℚ)⌉) ∧
    (∀ page : Int, (listCore page limit s).count = (listCore page limit s).registrations.length) ∧
    (∀ page : Int, (listCore page limit s).registrations
      = ((((s.insertionSort regGE).map selectFields).drop
          (((page - 1) * limit).toNat)).take limit.toNat)) ∧
    (((List.range ((listCore 1 limit s).totalPages.toNat)).map
        (fun i : Nat => (listCore ((i : Int) + 1) limit s).registrations)).flatten
      = (s.insertionSort regGE).map selectFields) ∧
    List.Sorted (fun x y : String × Int => y.2 ≤ x.2)
      ((s.insertionSort regGE).map selectFields) ∧
    List.Perm ((s.insertionSort regGE).map selectFields) (s.map selectFields) := by
  obtain ⟨m, hm, rfl⟩ : ∃ m : Nat, 0 < m ∧ limit = (m : Int) := ⟨limit.toNat, by omega, by omega⟩
  have hmt : ((m : Int)).toNat = m := Int.toNat_natCast m
  refine ⟨fun page => rfl, fun page => jsCeilDiv_eq_ceil s.length _ hl, fun page => rfl,
    ?_, ?_, ?_, ?_⟩
  · intro page
    simp only [listCore, List.map_take, List.map_drop]
  · have hslice : ∀ i : Nat,
        (listCore ((i : Int) + 1) (m : Int) s).registrations
          = (((s.insertionSort regGE).map selectFields).drop (i * m)).take m := by
      intro i
      have hprod : (((i : Int) + 1) - 1) * (m : Int) = ((i * m : Nat) : Int) := by
        push_cast
        ring
      simp only [listCore, List.map_take, List.map_drop, hprod, Int.toNat_natCast, hmt]
    have hN : ((listCore 1 (m : Int) s).totalPages).toNat = (s.length + m - 1) / m := by
      rw [show (listCore 1 (m : Int) s).totalPages = jsCeilDiv s.length (m : Int) from rfl,
        jsCeilDiv_natCast s.length m hm, Int.toNat_natCast]
    rw [funext hslice, hN, flatten_chunks]
    apply List.take_of_length_le
    rw [List.length_map, (List.perm_insertionSort regGE s).length_eq]
    exact le_ceilDiv_mul s.length m hm
  · exact List.Pairwise.map selectFields (fun a b hab => hab)
      (List.sorted_insertionSort regGE s)
  · exact (List.perm_insertionSort regGE s).map selectFields

/-- Witness for `C5_list_pagination` at limit 2 over `sampleStore`, with the
per-page statements instantiated at page 2. -/
theorem C5_witness :
    (listCore 2 2 sampleStore).total = sampleStore.length ∧
    (listCore 2 2 sampleStore).totalPages = ⌈(sampleStore.length : ℚ) / ((2 : Int) : ℚ)⌉ ∧
    (listCore 2 2 sampleStore).count = (listCore 2 2 sampleStore).registrations.length ∧
    (listCore 2 2 sampleStore).registrations
      = ((((sampleStore.insertionSort regGE).map selectFields).drop
          ((((2 : Int) - 1) * 2).toNat)).take ((2 : Int)).toNat) ∧
    (((List.range ((listCore 1 2 sampleStore).totalPages.toNat)).map
        (fun i : Nat => (listCore ((i : Int) + 1) 2 sampleStore).registrations)).flatten
      = (sampleStore.insertionSort regGE).map selectFields) ∧
    List.Sorted (fun x y : String × Int => y.2 ≤ x.2)
      ((sampleStore.insertionSort regGE).map selectFields) ∧
    List.Perm ((sampleStore.insertionSort regGE).map selectFields)
      (sampleStore.map selectFields) :=
  have h := C5_list_pagination 2 (by decide) sampleStore
  ⟨h.1 2, h.2.1 2, h.2.2.1 2, h.2.2.2.1 2, h.2.2.2.2.1, h.2.2.2.2.2.1, h.2.2.2.2.2.2⟩

/-- C10 (implicit): for positive page and limit, the registrations slice has
length `max 0 (min limit (total - (page-1)*limit))`; a page beyond the last
non-empty page yields an empty slice while `total` and `totalPages` are
reported exactly as for page 1. -/
theorem C10_page_slice_length (page limit : Int) (hp : 0 < page) (hl : 0 < limit) (s : Store) :
    (((listCore page limit s).registrations.length : Int)
      = max 0 (min limit ((s.length : Int) - (page - 1) * limit))) ∧
    ((listCore 1 limit s).totalPages < page →
      (listCore page limit s).registrations = [] ∧
      (listCore page limit s).total = (listCore 1 limit s).total ∧
      (listCore page limit s).totalPages = (listCore 1 limit s).totalPages) := by
  obtain ⟨m, hm, rfl⟩ : ∃ m : Nat, 0 < m ∧ limit = (m : Int) := ⟨limit.toNat, by omega, by omega⟩
  obtain ⟨q, rfl⟩ : ∃ q : Nat, page = ((q : Int) + 1) := ⟨(page - 1).toNat, by omega⟩
  have hmt : ((m : Int)).toNat = m := Int.toNat_natCast m
  have hprod : (((q : Int) + 1) - 1) * (m : Int) = ((q * m : Nat) : Int) := by
    push_cast
    ring
  have hk : ((((q : Int) + 1) - 1) * (m : Int)).toNat = q * m := by
    rw [hprod, Int.toNat_natCast]
  constructor
  · have hlenreg : (listCore ((q : Int) + 1) (m : Int) s).registrations.length
        = min m ((s.insertionSort regGE).length - q * m) := by
      simp only [listCore, List.length_map, List.length_take, List.length_drop, hk, hmt]
    rw [hlenreg, (List.perm_insertionSort regGE s).length_eq, hprod]
    generalize (q * m : Nat) = K
    omega
  · intro hlt
    have hNlt : (s.length + m - 1) / m < q + 1 := by
      rw [show (listCore 1 (m : Int) s).totalPages = jsCeilDiv s.length (m : Int) from rfl,
        jsCeilDiv_natCast s.length m hm] at hlt
      exact_mod_cast hlt
    have hskip : s.length ≤ q * m :=
      le_trans (le_ceilDiv_mul s.length m hm) (Nat.mul_le_mul_right m (by omega))
    refine ⟨?_, rfl, rfl⟩
    show ((((s.insertionSort regGE).drop
        (((((q : Int) + 1) - 1) * (m : Int)).toNat)).take (((m : Int)).toNat)).map selectFields) = []
    rw [hk, List.drop_eq_nil_of_le
      (by rw [(List.perm_insertionSort regGE s).length_eq]; exact hskip)]
    simp

/-- Witness for `C10_page_slice_length` at page 5, limit 2 over `sampleStore`
(a page beyond the last non-empty page). -/
theorem C10_witness :
    (((listCore 5 2 sampleStore).registrations.length : Int)
      = max 0 (min 2 ((sampleStore.length : Int) - ((5 : Int) - 1) * 2))) ∧
    ((listCore 1 2 sampleStore).totalPages < 5 →
      (listCore 5 2 sampleStore).registrations = [] ∧
      (listCore 5 2 sampleStore).total = (listCore 1 2 sampleStore).total ∧
      (listCore 5 2 sampleStore).totalPages = (listCore 1 2 sampleStore).totalPages) :=
  C10_page_slice_length 5 2 (by decide) (by decide) sampleStore

end Rigworkz
